import Mathlib

/-!
Verification development for the QuantPy portfolio engine (src/qpy/portfolio.py).

The data model is a shallow embedding: pandas DataFrames become an index
(list of date labels) plus labelled columns of exact rationals, the `Stock`
and `Portfolio` classes become structures, and the stateful methods become
functions returning the new state together with an optional raised error
(`Option String`), so that an exception escaping mid-method leaves the
mutations already performed visible in the returned state, exactly as in
Python.  Quantities that the source computes with floating point are
modelled with exact rationals; square roots live in `ℝ`.

The modules `qpy.pf_returns`, `qpy.pf_quants` and `qpy.optimisation` are
imported by the source file but are not part of the sources available
here; the functions taken from them (`dailyReturns`,
`historicalMeanReturn`, `weightedMean`, `weightedStd`, `sharpeRatio`) are
modelled from the specification text, and each such definition carries a
doc comment saying so.  The pandas library functions used by the source
(`insert`, `set_index`, `append`, `std`, `cov`, `skew`, `kurt`) are
modelled from standard pandas semantics (sample statistics with ddof = 1,
the adjusted Fisher-Pearson skewness and the unbiased excess kurtosis).
-/

/-- Sum of a list of rationals. -/
def listSum (xs : List ℚ) : ℚ := xs.sum

/-- Mean of a list of rationals; the empty list yields 0 here where pandas
would yield NaN (no claim below depends on the empty case). -/
def listMean (xs : List ℚ) : ℚ := listSum xs / (xs.length : ℚ)

/-- Dot product of two rational vectors (truncating to the shorter). -/
def dotQ (xs ys : List ℚ) : ℚ := listSum (List.zipWith (fun a b => a * b) xs ys)

/-- Percentage changes of consecutive entries: (p_t - p_(t-1)) / p_(t-1),
one entry per consecutive pair, i.e. the first row is dropped.  This is the
core of the spec-modelled `dailyReturns`. -/
def pctChanges (ps : List ℚ) : List ℚ :=
  List.zipWith (fun prev cur => (cur - prev) / prev) ps (ps.drop 1)

/-- Sample variance with ddof = 1 (pandas default); fewer than two points
would be NaN in pandas and is the junk value 0 here. -/
def sampleVar (xs : List ℚ) : ℚ :=
  listSum (xs.map (fun x => (x - listMean xs) ^ 2)) / ((xs.length : ℚ) - 1)

/-- Sample covariance with ddof = 1 (pandas `DataFrame.cov` semantics). -/
def sampleCov (xs ys : List ℚ) : ℚ :=
  listSum (List.zipWith (fun a b => (a - listMean xs) * (b - listMean ys)) xs ys)
    / ((xs.length : ℚ) - 1)

/-- Covariance matrix of a list of equally long columns. -/
def covMatrix (colsVals : List (List ℚ)) : List (List ℚ) :=
  colsVals.map (fun x => colsVals.map (fun y => sampleCov x y))

/-- Quadratic form w^T M w. -/
def quadForm (m : List (List ℚ)) (w : List ℚ) : ℚ :=
  listSum (List.zipWith (fun wi row => wi * dotQ row w) w m)

/-- Pandas unbiased excess kurtosis (`Series.kurt`), an exact rational
function of the data; fewer than four points would be NaN in pandas. -/
def pandasKurt (xs : List ℚ) : ℚ :=
  let n : ℚ := (xs.length : ℚ)
  let m : ℚ := listMean xs
  let m2 : ℚ := listSum (xs.map (fun x => (x - m) ^ 2))
  let m4 : ℚ := listSum (xs.map (fun x => (x - m) ^ 4))
  n * (n + 1) * (n - 1) * m4 / ((n - 2) * (n - 3) * m2 ^ 2)
    - 3 * (n - 1) ^ 2 / ((n - 2) * (n - 3))

/-- Pandas adjusted Fisher-Pearson sample skewness (`Series.skew`):
sqrt(n(n-1))/(n-2) · m3 / m2^(3/2) with m2, m3 the raw sums of squared and
cubed deviations. -/
noncomputable def pandasSkew (xs : List ℚ) : ℝ :=
  let n : ℝ := (xs.length : ℝ)
  let m : ℚ := listMean xs
  let m2 : ℚ := listSum (xs.map (fun x => (x - m) ^ 2))
  let m3 : ℚ := listSum (xs.map (fun x => (x - m) ^ 3))
  n * Real.sqrt (n - 1) / (n - 2) * ((m3 : ℝ) / Real.sqrt (((m2 : ℝ)) ^ 3))

/-- Pandas sample standard deviation with ddof = 1 (`Series.std`). -/
noncomputable def sampleStd (xs : List ℚ) : ℝ := Real.sqrt ((sampleVar xs : ℚ) : ℝ)

/-- A pandas DataFrame: a date index and labelled columns of values.
Well-formed frames have every column as long as the index. -/
structure DataFrame where
  index : List String
  cols : List (String × List ℚ)
deriving DecidableEq, Repr

/-- Labels of the columns of a frame. -/
def DataFrame.labels (df : DataFrame) : List String := df.cols.map Prod.fst

/-- Modelled from the spec: `qpy.pf_returns.dailyReturns` is imported by the
source but its module is not among the sources; the spec defines it as the
percentage change (price[t] - price[t-1]) / price[t-1] for t > 0, with the
first row dropped, applied to every column. -/
def dailyReturns (df : DataFrame) : DataFrame :=
  { index := df.index.drop 1,
    cols := df.cols.map (fun c => (c.1, pctChanges c.2)) }

/-- Modelled from the spec: `qpy.pf_returns.historicalMeanReturn` is imported
by the source but its module is not among the sources; the spec defines it as
the mean of `dailyReturns(prices)` multiplied by `freq`, per column. -/
def historicalMeanReturn (df : DataFrame) (freq : ℕ) : List ℚ :=
  (dailyReturns df).cols.map (fun c => listMean c.2 * (freq : ℚ))

/-- Modelled from the spec: `qpy.pf_quants.weightedMean` is imported by the
source but its module is not among the sources; the spec defines it as the
dot product of the mean vector and the weight vector, with a length mismatch
being a fatal input error. -/
def weightedMean (means weights : List ℚ) : Except String ℚ :=
  if means.length = weights.length then .ok (dotQ means weights)
  else .error ("InputShapeError: mismatched vector lengths")

/-- Modelled from the spec: `qpy.pf_quants.weightedStd` is imported by the
source but its module is not among the sources; the spec defines it as
sqrt(weights^T · covarianceMatrix · weights), with dimension agreement a
precondition that is not re-verified at runtime. -/
noncomputable def weightedStd (cov : List (List ℚ)) (weights : List ℚ) : ℝ :=
  Real.sqrt ((quadForm cov weights : ℚ) : ℝ)

/-- Modelled from the spec: `qpy.pf_quants.sharpeRatio` is imported by the
source but its module is not among the sources; the spec defines it as
(expectedReturn - riskFreeRate) / volatility with `volatility == 0` an
explicit UndefinedSharpe condition reported to the caller. -/
noncomputable def sharpeRatio (expectedReturn volatility riskFreeRate : ℝ) :
    Except String ℝ :=
  if volatility = 0 then .error ("UndefinedSharpe")
  else .ok ((expectedReturn - riskFreeRate) / volatility)

/-- Per-column pandas skewness of a frame (`DataFrame.skew`). -/
noncomputable def DataFrame.skewList (df : DataFrame) : List ℝ :=
  df.cols.map (fun c => pandasSkew c.2)

/-- Per-column pandas kurtosis of a frame (`DataFrame.kurt`). -/
def DataFrame.kurtList (df : DataFrame) : List ℚ :=
  df.cols.map (fun c => pandasKurt c.2)

/-- The metadata row of one asset: the source requires the column labels
`Name` and `FMV` (further free-form columns are irrelevant to the claims). -/
structure InvestmentInfo where
  Name : String
  FMV : ℚ
deriving DecidableEq, Repr

/-- Sum of the FMV column of a metadata table (`self.portfolio.FMV.sum()`). -/
def sumFMV (rows : List InvestmentInfo) : ℚ := listSum (rows.map (fun r => r.FMV))

/-- The `Stock` class: metadata, price data and the statistics cached by
`Stock.__init__` (expected return, volatility, skew, kurtosis). -/
structure Stock where
  name : String
  investmentinfo : InvestmentInfo
  stock_data : DataFrame
  expectedReturn : List ℚ
  volatility : List ℝ
  skew : ℝ
  kurtosis : ℚ

/-- The volatility computation of `Stock.compVolatility`:
`self.compDailyReturns().std() * np.sqrt(freq)`, per column. -/
noncomputable def volatilityOf (stock_data : DataFrame) (freq : ℕ) : List ℝ :=
  (dailyReturns stock_data).cols.map (fun c => sampleStd c.2 * Real.sqrt (freq : ℝ))

/-- `Stock.__init__`: stores name (`investmentinfo.Name`), metadata and data,
then caches expected return and volatility at freq = 252 and the skew and
kurtosis of `stock_data` itself (first entry of the per-column Series, as in
`self.stock_data.skew().values[0]`). -/
noncomputable def Stock.make (investmentinfo : InvestmentInfo) (stock_data : DataFrame) :
    Stock :=
  { name := investmentinfo.Name,
    investmentinfo := investmentinfo,
    stock_data := stock_data,
    expectedReturn := historicalMeanReturn stock_data 252,
    volatility := volatilityOf stock_data 252,
    skew := (DataFrame.skewList stock_data).headI,
    kurtosis := (DataFrame.kurtList stock_data).headI }

/-- `Stock.compDailyReturns`. -/
def Stock.compDailyReturns (s : Stock) : DataFrame := dailyReturns s.stock_data

/-- `Stock.compExpectedReturn` (source default freq = 252 is passed
explicitly by callers here). -/
def Stock.compExpectedReturn (s : Stock) (freq : ℕ) : List ℚ :=
  historicalMeanReturn s.stock_data freq

/-- `Stock.compVolatility`. -/
noncomputable def Stock.compVolatility (s : Stock) (freq : ℕ) : List ℝ :=
  volatilityOf s.stock_data freq

/-- Python dict update (`self.stocks.update({name: stock})`): replace in
place if the key exists, otherwise append. -/
def dictUpdate (m : List (String × Stock)) (k : String) (v : Stock) :
    List (String × Stock) :=
  if k ∈ m.map Prod.fst then m.map (fun p => if p.1 = k then (k, v) else p)
  else m ++ [(k, v)]

/-- pandas `DataFrame.insert(loc=len(cols), column=label, value=vals)`:
duplicate labels are rejected (allow_duplicates defaults to False); on a
frame with no columns and no index the column is accepted and a default
range index appears (it is overwritten by `set_index` immediately after in
the source); otherwise the value list must be exactly as long as the
existing index. -/
def DataFrame.insertCol (df : DataFrame) (label : String) (vals : List ℚ) :
    Except String DataFrame :=
  if label ∈ df.labels then .error ("cannot insert column, already exists")
  else if df.cols = [] ∧ df.index = [] then
    .ok { index := (List.range vals.length).map (fun n => toString n),
          cols := [(label, vals)] }
  else if vals.length = df.index.length then
    .ok { df with cols := df.cols ++ [(label, vals)] }
  else .error ("Length of values does not match length of index")

/-- pandas `DataFrame.set_index(values, inplace=True)` with a plain array:
replaces the index, requiring the array to match the number of rows. -/
def DataFrame.setIndex (df : DataFrame) (newIndex : List String) :
    Except String DataFrame :=
  if newIndex.length = df.index.length then .ok { df with index := newIndex }
  else .error ("Length mismatch in set_index")

/-- The column loop of `Portfolio._addStockData`: columns inserted one at a
time, in place, so an error raised mid-loop keeps the columns already
inserted. -/
def insertAll (df : DataFrame) (cs : List (String × List ℚ)) :
    DataFrame × Option String :=
  match cs with
  | [] => (df, none)
  | c :: rest =>
    match df.insertCol c.1 c.2 with
    | .error e => (df, some e)
    | .ok df2 => insertAll df2 rest

/-- `Portfolio._addStockData`: insert every column of the new frame, then
set the aggregated index to the NEW frame's index values (the source never
compares the two date indices). -/
def addStockData (pf_stock_data : DataFrame) (df : DataFrame) :
    DataFrame × Option String :=
  match insertAll pf_stock_data df.cols with
  | (d, some e) => (d, some e)
  | (d, none) =>
    match d.setIndex df.index with
    | .error e => (d, some e)
    | .ok d2 => (d2, none)

/-- The `Portfolio` class state.  `totalinvestment` is the backing attribute
`__totalinvestment`; `none` means the attribute was never assigned (the
setter treats `None` as initialisation and skips the assignment), so reading
the property then raises `AttributeError`. -/
structure Portfolio where
  portfolio : List InvestmentInfo
  stocks : List (String × Stock)
  pf_stock_data : DataFrame
  expectedReturn : Option ℚ
  volatility : Option ℝ
  sharpe : Option ℝ
  skew : Option (List ℝ)
  kurtosis : Option (List ℚ)
  totalinvestment : Option ℚ

/-- `Portfolio.__init__`: everything empty; the `self.totalinvestment = None`
assignment goes through the setter, which skips `None`, leaving the backing
attribute unset. -/
def Portfolio.init : Portfolio :=
  { portfolio := [], stocks := [], pf_stock_data := { index := [], cols := [] },
    expectedReturn := none, volatility := none, sharpe := none, skew := none,
    kurtosis := none, totalinvestment := none }

/-- Reading the `totalinvestment` property: `AttributeError` if the backing
attribute was never set. -/
def Portfolio.getTotalinvestment (pf : Portfolio) : Except String ℚ :=
  match pf.totalinvestment with
  | none => .error ("AttributeError: no attribute _Portfolio__totalinvestment")
  | some v => .ok v

/-- The `totalinvestment` setter on a numeric value: values `<= 0` raise
`ValueError` (the `None` branch is only exercised by `__init__` and the
type-check branch cannot fire in this typed model). -/
def Portfolio.setTotalinvestment (pf : Portfolio) (val : ℚ) : Except String Portfolio :=
  if val ≤ 0 then
    .error ("The money to be invested in the portfolio must be > 0.")
  else .ok { pf with totalinvestment := some val }

/-- `Portfolio.compPfWeights`: `self.portfolio['FMV'] / self.totalinvestment`;
reading the property may raise. -/
def Portfolio.compPfWeights (pf : Portfolio) : Except String (List ℚ) :=
  match pf.getTotalinvestment with
  | .error e => .error e
  | .ok t => .ok (pf.portfolio.map (fun row => row.FMV / t))

/-- `Portfolio.compCovPf`: covariance matrix of the daily returns of the
aggregated table. -/
def Portfolio.compCovPf (pf : Portfolio) : List (List ℚ) :=
  covMatrix ((dailyReturns pf.pf_stock_data).cols.map Prod.snd)

/-- `Portfolio.compPfExpectedReturn`: weighted mean of the per-column
historical mean returns; stores the result in `self.expectedReturn` as a
side effect and returns it. -/
def Portfolio.compPfExpectedReturn (pf : Portfolio) (freq : ℕ) :
    Except String (ℚ × Portfolio) :=
  match pf.compPfWeights with
  | .error e => .error e
  | .ok w =>
    match weightedMean (historicalMeanReturn pf.pf_stock_data freq) w with
    | .error e => .error e
    | .ok er => .ok (er, { pf with expectedReturn := some er })

/-- `Portfolio.compPfVolatility`: `weightedStd(cov, weights) * sqrt(freq)`;
stores the result in `self.volatility` as a side effect and returns it. -/
noncomputable def Portfolio.compPfVolatility (pf : Portfolio) (freq : ℕ) :
    Except String (ℝ × Portfolio) :=
  match pf.compPfWeights with
  | .error e => .error e
  | .ok w =>
    let vol := weightedStd pf.compCovPf w * Real.sqrt (freq : ℝ)
    .ok (vol, { pf with volatility := some vol })

/-- `Portfolio.compPfSharpe`: reads the CACHED `self.expectedReturn` and
`self.volatility` fields (it does not recompute them), feeds them to
`sharpeRatio`, stores and returns the result.  Unset fields would be `None`
in Python and make the arithmetic raise `TypeError`. -/
noncomputable def Portfolio.compPfSharpe (pf : Portfolio) (riskFreeRate : ℝ) :
    Except String (ℝ × Portfolio) :=
  match pf.expectedReturn, pf.volatility with
  | some er, some vol =>
    match sharpeRatio (er : ℝ) vol riskFreeRate with
    | .error e => .error e
    | .ok sh => .ok (sh, { pf with sharpe := some sh })
  | _, _ => .error ("TypeError: unsupported operand type")

/-- `Portfolio.addStock`, statement by statement.  The dict update and the
metadata append happen first; only then is the price data merged and the
derived state recomputed, so an error raised later leaves the first
mutations in place.  The source line 146 re-assigns `self.expectedReturn`
with the value `compPfExpectedReturn` has already stored (likewise for
volatility and sharpe), which is the identity here.  Defaults used by the
source calls: freq = 252, riskFreeRate = 0.005. -/
noncomputable def Portfolio.addStock (pf : Portfolio) (stock : Stock) :
    Portfolio × Option String :=
  let stocks1 := dictUpdate pf.stocks stock.name stock
  let rows1 := pf.portfolio ++ [stock.investmentinfo]
  match addStockData pf.pf_stock_data stock.stock_data with
  | (d, some e) =>
    ({ pf with stocks := stocks1, portfolio := rows1, pf_stock_data := d }, some e)
  | (d, none) =>
    let pf2 : Portfolio :=
      { pf with stocks := stocks1, portfolio := rows1, pf_stock_data := d }
    match pf2.setTotalinvestment (sumFMV rows1) with
    | .error e => (pf2, some e)
    | .ok pf3 =>
      match pf3.compPfExpectedReturn 252 with
      | .error e => (pf3, some e)
      | .ok (_, pf4) =>
        match pf4.compPfVolatility 252 with
        | .error e => (pf4, some e)
        | .ok (_, pf5) =>
          match pf5.compPfSharpe ((1 : ℝ) / 200) with
          | .error e => (pf5, some e)
          | .ok (_, pf6) =>
            ({ pf6 with skew := some (DataFrame.skewList pf6.pf_stock_data),
                        kurtosis := some (DataFrame.kurtList pf6.pf_stock_data) },
             none)

/-- A sequence of `addStock` calls; stops at the first raised error. -/
noncomputable def Portfolio.addMany (pf : Portfolio) (ss : List Stock) :
    Portfolio × Option String :=
  match ss with
  | [] => (pf, none)
  | s :: rest =>
    match pf.addStock s with
    | (pf1, none) => pf1.addMany rest
    | (pf1, some e) => (pf1, some e)

/-- Concrete asset with varying returns (prices 100, 110, 99 over three
dates), invested amount 60. -/
noncomputable def stockA : Stock :=
  Stock.make { Name := "A", FMV := 60 }
    { index := ["d1", "d2", "d3"], cols := [("A", [100, 110, 99])] }

/-- Concrete asset with dates entirely disjoint from those of `stockA` but
the same number of rows, invested amount 40. -/
noncomputable def stockB : Stock :=
  Stock.make { Name := "B", FMV := 40 }
    { index := ["e1", "e2", "e3"], cols := [("B", [10, 12, 9])] }

/-- A second asset carrying the name and column label of `stockA` but other
data: used to exercise the add-under-duplicate-name path. -/
noncomputable def stockA2 : Stock :=
  Stock.make { Name := "A", FMV := 25 }
    { index := ["x1", "x2", "x3"], cols := [("A", [5, 6, 7])] }

/-- An asset whose invested amount is 0, so that the `totalinvestment`
validation fails after the earlier mutations of `addStock` have happened. -/
noncomputable def stockBad : Stock :=
  Stock.make { Name := "A0", FMV := 0 }
    { index := ["d1", "d2"], cols := [("A0", [100, 110])] }

/-- Concrete single-asset for witnesses: prices 100, 110, 99, amount 1000. -/
noncomputable def stockW : Stock :=
  Stock.make { Name := "W", FMV := 1000 }
    { index := ["d1", "d2", "d3"], cols := [("W", [100, 110, 99])] }

/-- A concrete portfolio state already holding `stockA` (the state a
successful `addStock stockA` reaches, written out directly). -/
noncomputable def pfX : Portfolio :=
  { portfolio := [{ Name := "A", FMV := 60 }],
    stocks := [("A", stockA)],
    pf_stock_data := { index := ["d1", "d2", "d3"], cols := [("A", [100, 110, 99])] },
    expectedReturn := none, volatility := none, sharpe := none, skew := none,
    kurtosis := none, totalinvestment := some 60 }

/-- A concrete portfolio state with cached expected return 3 and cached
volatility 2, to exercise `compPfSharpe` reading the cached fields. -/
noncomputable def pfC10 : Portfolio :=
  { pfX with expectedReturn := some 3, volatility := some 2 }

/-- Concrete metadata for the skew/kurtosis claim. -/
def infoC : InvestmentInfo := { Name := "C", FMV := 1 }

/-- Concrete five-point price series for the skew/kurtosis claim. -/
def dataC : DataFrame :=
  { index := ["t1", "t2", "t3", "t4", "t5"], cols := [("C", [1, 2, 3, 5, 8])] }

/-! ## Helper lemmas -/

theorem insertCol_ok_cols {df df2 : DataFrame} {l : String} {v : List ℚ}
    (h : df.insertCol l v = .ok df2) :
    df2.cols = df.cols ++ [(l, v)] ∧ l ∉ df.labels := by
  unfold DataFrame.insertCol at h
  split_ifs at h with h1 h2 h3 <;> cases h
  · exact ⟨by simp [h2.1], h1⟩
  · exact ⟨rfl, h1⟩

theorem insertAll_ok_cols :
    ∀ (cs : List (String × List ℚ)) (df d : DataFrame),
      insertAll df cs = (d, none) → d.cols = df.cols ++ cs := by
  intro cs
  induction cs with
  | nil =>
    intro df d h
    unfold insertAll at h
    cases h
    simp
  | cons c rest ih =>
    intro df d h
    unfold insertAll at h
    revert h
    split
    · intro h; cases h
    · rename_i df2 heq
      intro h
      rw [ih df2 d h, (insertCol_ok_cols heq).1]
      simp

theorem setIndex_ok_inv {df d : DataFrame} {idx : List String}
    (h : df.setIndex idx = .ok d) : d.index = idx ∧ d.cols = df.cols := by
  unfold DataFrame.setIndex at h
  split_ifs at h
  cases h
  exact ⟨rfl, rfl⟩

theorem addStockData_ok_inv {pfd df d : DataFrame}
    (h : addStockData pfd df = (d, none)) :
    d.cols = pfd.cols ++ df.cols ∧ d.index = df.index := by
  unfold addStockData at h
  revert h
  split
  · intro h; cases h
  · rename_i d1 heq1
    split
    · intro h; cases h
    · rename_i d2 heq2
      intro h
      cases h
      have h1 := insertAll_ok_cols df.cols pfd d1 heq1
      have h2 := setIndex_ok_inv heq2
      exact ⟨h2.2.trans h1, h2.1⟩

theorem compPfWeights_of_total {pf : Portfolio} {t : ℚ}
    (h : pf.totalinvestment = some t) :
    pf.compPfWeights = .ok (pf.portfolio.map (fun row => row.FMV / t)) := by
  unfold Portfolio.compPfWeights Portfolio.getTotalinvestment
  rw [h]

theorem compPfExpectedReturn_ok_inv {pf : Portfolio} {freq : ℕ} {er : ℚ}
    {pf2 : Portfolio} (h : pf.compPfExpectedReturn freq = .ok (er, pf2)) :
    pf2 = { pf with expectedReturn := some er } ∧
      ∃ w, pf.compPfWeights = .ok w ∧
        weightedMean (historicalMeanReturn pf.pf_stock_data freq) w = .ok er := by
  unfold Portfolio.compPfExpectedReturn at h
  revert h
  split
  · intro h; cases h
  · rename_i w hw
    split
    · intro h; cases h
    · rename_i er0 her
      intro h
      cases h
      exact ⟨rfl, w, hw, her⟩

theorem weightedMean_ok_inv {means w : List ℚ} {er : ℚ}
    (h : weightedMean means w = .ok er) :
    means.length = w.length ∧ er = dotQ means w := by
  unfold weightedMean at h
  split_ifs at h with h1
  cases h
  exact ⟨h1, rfl⟩

theorem compPfVolatility_ok_inv {pf : Portfolio} {freq : ℕ} {vol : ℝ}
    {pf2 : Portfolio} (h : pf.compPfVolatility freq = .ok (vol, pf2)) :
    pf2 = { pf with volatility := some vol } ∧
      ∃ w, pf.compPfWeights = .ok w ∧
        vol = weightedStd pf.compCovPf w * Real.sqrt (freq : ℝ) := by
  unfold Portfolio.compPfVolatility at h
  revert h
  split
  · intro h; cases h
  · rename_i w hw
    intro h
    cases h
    exact ⟨rfl, w, hw, rfl⟩

theorem compPfSharpe_ok_inv {pf : Portfolio} {rf : ℝ} {sh : ℝ}
    {pf2 : Portfolio} (h : pf.compPfSharpe rf = .ok (sh, pf2)) :
    pf2 = { pf with sharpe := some sh } := by
  unfold Portfolio.compPfSharpe at h
  revert h
  split
  · rename_i er vol _ _
    split
    · intro h; cases h
    · intro h; cases h; rfl
  · intro h; cases h

theorem compPfSharpe_of_fields {pf : Portfolio} {er : ℚ} {vol : ℝ} (rf : ℝ)
    (he : pf.expectedReturn = some er) (hv : pf.volatility = some vol)
    (hvol : vol ≠ 0) :
    pf.compPfSharpe rf =
      .ok (((er : ℝ) - rf) / vol, { pf with sharpe := some (((er : ℝ) - rf) / vol) }) := by
  simp only [Portfolio.compPfSharpe, he, hv, sharpeRatio, if_neg hvol]

theorem sqrt_mul_sqrt_ne_zero {q : ℚ} {f : ℝ} (hq : 0 < q) (hf : 0 < f) :
    Real.sqrt ((q : ℝ)) * Real.sqrt f ≠ 0 := by
  have h1 : (0 : ℝ) < Real.sqrt ((q : ℝ)) := Real.sqrt_pos.mpr (by exact_mod_cast hq)
  have h2 : (0 : ℝ) < Real.sqrt f := Real.sqrt_pos.mpr hf
  exact ne_of_gt (mul_pos h1 h2)

theorem listSum_map_div (rows : List InvestmentInfo) (t : ℚ) :
    listSum (rows.map (fun r => r.FMV / t)) = sumFMV rows / t := by
  unfold listSum sumFMV
  induction rows with
  | nil => simp [listSum]
  | cons r rest ih =>
    simp only [List.map_cons, List.sum_cons, listSum] at ih ⊢
    rw [ih, add_div]

theorem setTotalinvestment_ok_of {pf : Portfolio} {v : ℚ} (h : 0 < v) :
    pf.setTotalinvestment v = .ok { pf with totalinvestment := some v } := by
  unfold Portfolio.setTotalinvestment
  rw [if_neg (not_le.mpr h)]

theorem setTotalinvestment_ok_inv {pf pf2 : Portfolio} {v : ℚ}
    (h : pf.setTotalinvestment v = .ok pf2) :
    pf2 = { pf with totalinvestment := some v } ∧ 0 < v := by
  unfold Portfolio.setTotalinvestment at h
  split_ifs at h with h1
  cases h
  exact ⟨rfl, not_le.mp h1⟩

theorem weightedMean_ok_of {means w : List ℚ} (h : means.length = w.length) :
    weightedMean means w = .ok (dotQ means w) := by
  unfold weightedMean
  rw [if_pos h]

theorem compPfExpectedReturn_ok_of {pf : Portfolio} {t : ℚ} (freq : ℕ)
    (ht : pf.totalinvestment = some t)
    (hlen : (historicalMeanReturn pf.pf_stock_data freq).length = pf.portfolio.length) :
    pf.compPfExpectedReturn freq =
      .ok (dotQ (historicalMeanReturn pf.pf_stock_data freq)
            (pf.portfolio.map (fun row => row.FMV / t)),
          { pf with expectedReturn := some (dotQ (historicalMeanReturn pf.pf_stock_data freq)
            (pf.portfolio.map (fun row => row.FMV / t))) }) := by
  have hl2 : (historicalMeanReturn pf.pf_stock_data freq).length
      = (pf.portfolio.map (fun row => row.FMV / t)).length := by
    simpa using hlen
  simp only [Portfolio.compPfExpectedReturn, compPfWeights_of_total ht,
    weightedMean_ok_of hl2]

theorem compPfVolatility_ok_of {pf : Portfolio} {t : ℚ} (freq : ℕ)
    (ht : pf.totalinvestment = some t) :
    pf.compPfVolatility freq =
      .ok (weightedStd pf.compCovPf (pf.portfolio.map (fun row => row.FMV / t))
             * Real.sqrt (freq : ℝ),
          { pf with volatility := some (weightedStd pf.compCovPf
             (pf.portfolio.map (fun row => row.FMV / t)) * Real.sqrt (freq : ℝ)) }) := by
  simp only [Portfolio.compPfVolatility, compPfWeights_of_total ht]

theorem addStock_ok_of {pf : Portfolio} {s : Stock} {d : DataFrame}
    (h1 : addStockData pf.pf_stock_data s.stock_data = (d, none))
    (h2 : 0 < sumFMV (pf.portfolio ++ [s.investmentinfo]))
    (h3 : (historicalMeanReturn d 252).length = pf.portfolio.length + 1)
    (h4 : 0 < quadForm (covMatrix ((dailyReturns d).cols.map Prod.snd))
        ((pf.portfolio ++ [s.investmentinfo]).map
          (fun r => r.FMV / sumFMV (pf.portfolio ++ [s.investmentinfo])))) :
    (pf.addStock s).2 = none := by
  simp only [Portfolio.addStock, h1]
  split
  · rename_i e hset
    rw [setTotalinvestment_ok_of h2] at hset
    cases hset
  · rename_i pf3 hset
    obtain ⟨hpf3, hpos⟩ := setTotalinvestment_ok_inv hset
    subst hpf3
    split
    · rename_i e hER
      rw [compPfExpectedReturn_ok_of 252 rfl (by simpa using h3)] at hER
      cases hER
    · rename_i er pf4 hER
      obtain ⟨hpf4, _⟩ := compPfExpectedReturn_ok_inv hER
      subst hpf4
      split
      · rename_i e hV
        rw [compPfVolatility_ok_of 252 rfl] at hV
        cases hV
      · rename_i vol pf5 hV
        obtain ⟨hpf5, w, hw, hvol⟩ := compPfVolatility_ok_inv hV
        subst hpf5
        rw [compPfWeights_of_total rfl] at hw
        cases hw
        split
        · rename_i e hS
          have hne : vol ≠ 0 := by
            rw [hvol]
            unfold weightedStd Portfolio.compCovPf
            exact sqrt_mul_sqrt_ne_zero (by simpa using h4) (by norm_num)
          rw [compPfSharpe_of_fields ((1 : ℝ) / 200) rfl rfl hne] at hS
          cases hS
        · rfl

theorem addStock_ok_inv {pf : Portfolio} {s : Stock} {pf1 : Portfolio}
    (h : pf.addStock s = (pf1, none)) :
    ∃ d, addStockData pf.pf_stock_data s.stock_data = (d, none) ∧
      pf1.pf_stock_data = d ∧
      pf1.stocks = dictUpdate pf.stocks s.name s ∧
      pf1.portfolio = pf.portfolio ++ [s.investmentinfo] ∧
      pf1.totalinvestment = some (sumFMV (pf.portfolio ++ [s.investmentinfo])) ∧
      0 < sumFMV (pf.portfolio ++ [s.investmentinfo]) ∧
      (historicalMeanReturn d 252).length = pf.portfolio.length + 1 := by
  simp only [Portfolio.addStock] at h
  revert h
  split
  · intro h
    simp at h
  · rename_i d heq1
    split
    · intro h
      simp at h
    · rename_i pf3 hset
      obtain ⟨hpf3, hpos⟩ := setTotalinvestment_ok_inv hset
      subst hpf3
      split
      · intro h
        simp at h
      · rename_i er pf4 hER
        obtain ⟨hpf4, w, hw, hwm⟩ := compPfExpectedReturn_ok_inv hER
        subst hpf4
        rw [compPfWeights_of_total rfl] at hw
        cases hw
        have hlen := (weightedMean_ok_inv hwm).1
        split
        · intro h
          simp at h
        · rename_i vol pf5 hV
          obtain ⟨hpf5, _⟩ := compPfVolatility_ok_inv hV
          subst hpf5
          split
          · intro h
            simp at h
          · rename_i sh pf6 hS
            have hpf6 := compPfSharpe_ok_inv hS
            subst hpf6
            intro h
            injection h with hA hB
            subst hA
            refine ⟨d, heq1, rfl, rfl, rfl, rfl, hpos, ?_⟩
            simpa using hlen

theorem addStock_mutations (pf : Portfolio) (s : Stock) :
    (pf.addStock s).1.stocks = dictUpdate pf.stocks s.name s ∧
    (pf.addStock s).1.portfolio = pf.portfolio ++ [s.investmentinfo] := by
  simp only [Portfolio.addStock]
  split
  · exact ⟨rfl, rfl⟩
  · rename_i d heq1
    split
    · exact ⟨rfl, rfl⟩
    · rename_i pf3 hset
      obtain ⟨hpf3, _⟩ := setTotalinvestment_ok_inv hset
      subst hpf3
      split
      · exact ⟨rfl, rfl⟩
      · rename_i er pf4 hER
        obtain ⟨hpf4, _⟩ := compPfExpectedReturn_ok_inv hER
        subst hpf4
        split
        · exact ⟨rfl, rfl⟩
        · rename_i vol pf5 hV
          obtain ⟨hpf5, _⟩ := compPfVolatility_ok_inv hV
          subst hpf5
          split
          · exact ⟨rfl, rfl⟩
          · rename_i sh pf6 hS
            have hpf6 := compPfSharpe_ok_inv hS
            subst hpf6
            exact ⟨rfl, rfl⟩

theorem addMany_cons_ok {pf : Portfolio} {s : Stock} (rest : List Stock)
    (h : (pf.addStock s).2 = none) :
    pf.addMany (s :: rest) = (pf.addStock s).1.addMany rest := by
  rcases hps : pf.addStock s with ⟨pf1, o⟩
  rw [hps] at h
  simp only at h
  subst h
  simp only [Portfolio.addMany, hps]

theorem addMany_ok_inv :
    ∀ (ss : List Stock) (pf : Portfolio), (pf.addMany ss).2 = none →
      (pf.addMany ss).1.portfolio = pf.portfolio ++ ss.map (fun s => s.investmentinfo) ∧
      (ss ≠ [] →
        (pf.addMany ss).1.totalinvestment =
          some (sumFMV (pf.portfolio ++ ss.map (fun s => s.investmentinfo))) ∧
        0 < sumFMV (pf.portfolio ++ ss.map (fun s => s.investmentinfo))) := by
  intro ss
  induction ss with
  | nil =>
    intro pf h
    refine ⟨by simp [Portfolio.addMany], by simp⟩
  | cons s rest ih =>
    intro pf h
    rcases hps : pf.addStock s with ⟨pf1, o⟩
    cases o with
    | some e =>
      rw [show pf.addMany (s :: rest) = (pf1, some e) from by
        simp only [Portfolio.addMany, hps]] at h
      simp at h
    | none =>
      have hstep : pf.addMany (s :: rest) = pf1.addMany rest := by
        simp only [Portfolio.addMany, hps]
      rw [hstep] at h ⊢
      obtain ⟨dd, _, _, _, hport1, htot1, hpos1, _⟩ := addStock_ok_inv hps
      rcases rest with _ | ⟨r, rs⟩
      · refine ⟨?_, fun _ => ⟨?_, ?_⟩⟩
        · simpa [Portfolio.addMany] using hport1
        · simpa [Portfolio.addMany] using htot1
        · simpa using hpos1
      · obtain ⟨hportR, hcond⟩ := ih pf1 h
        obtain ⟨htotR, hposR⟩ := hcond (by simp)
        rw [hport1] at hportR htotR hposR
        refine ⟨by simpa using hportR, fun _ => ⟨by simpa using htotR, by simpa using hposR⟩⟩

theorem addStock_merge_fail {pf : Portfolio} {s : Stock} {d : DataFrame} {e : String}
    (h1 : addStockData pf.pf_stock_data s.stock_data = (d, some e)) :
    pf.addStock s =
      ({ pf with stocks := dictUpdate pf.stocks s.name s,
                 portfolio := pf.portfolio ++ [s.investmentinfo],
                 pf_stock_data := d }, some e) := by
  simp only [Portfolio.addStock, h1]

theorem addStock_setter_fail {pf : Portfolio} {s : Stock} {d : DataFrame}
    (h1 : addStockData pf.pf_stock_data s.stock_data = (d, none))
    (h2 : sumFMV (pf.portfolio ++ [s.investmentinfo]) ≤ 0) :
    pf.addStock s =
      ({ pf with stocks := dictUpdate pf.stocks s.name s,
                 portfolio := pf.portfolio ++ [s.investmentinfo],
                 pf_stock_data := d },
       some ("The money to be invested in the portfolio must be > 0.")) := by
  simp only [Portfolio.addStock, h1, Portfolio.setTotalinvestment, if_pos h2]

theorem map_fst_update (m : List (String × Stock)) (k : String) (v : Stock) :
    (m.map (fun p => if p.1 = k then (k, v) else p)).map Prod.fst = m.map Prod.fst := by
  induction m with
  | nil => rfl
  | cons p rest ih =>
    simp only [List.map_cons, ih]
    by_cases hp : p.1 = k
    · simp [hp]
    · simp [hp]

theorem dictUpdate_keys_of_mem {m : List (String × Stock)} {k : String} (v : Stock)
    (h : k ∈ m.map Prod.fst) :
    (dictUpdate m k v).map Prod.fst = m.map Prod.fst := by
  unfold dictUpdate
  rw [if_pos h]
  exact map_fst_update m k v

theorem historicalMeanReturn_congr {df1 df2 : DataFrame} (freq : ℕ)
    (h : df1.cols = df2.cols) :
    historicalMeanReturn df1 freq = historicalMeanReturn df2 freq := by
  unfold historicalMeanReturn dailyReturns
  simp [h]

theorem historicalMeanReturn_length (df : DataFrame) (freq : ℕ) :
    (historicalMeanReturn df freq).length = df.cols.length := by
  simp [historicalMeanReturn, dailyReturns]

/-! ## Claim theorems -/

/-- Claim C1, counterexample.  The claim states that an `addStock` failing
with a parameter error (here: total investment 0, rejected by the
`totalinvestment` setter) leaves the portfolio unchanged.  On the code it is
false: the add raises, yet the asset mapping has gained the key "A0" and the
metadata table a row, where the fresh portfolio had neither. -/
theorem claim_C1_counterexample :
    (Portfolio.init.addStock stockBad).2
        = some ("The money to be invested in the portfolio must be > 0.") ∧
    (Portfolio.init.addStock stockBad).1.stocks.map Prod.fst = ["A0"] ∧
    Portfolio.init.stocks.map Prod.fst = ([] : List String) ∧
    (Portfolio.init.addStock stockBad).1.portfolio ≠ Portfolio.init.portfolio := by
  have h1 : addStockData Portfolio.init.pf_stock_data stockBad.stock_data
      = ({ index := ["d1", "d2"], cols := [("A0", [100, 110])] }, none) := rfl
  have h2 : sumFMV (Portfolio.init.portfolio ++ [stockBad.investmentinfo]) ≤ 0 := by
    norm_num [sumFMV, listSum, Portfolio.init, stockBad, Stock.make]
  rw [addStock_setter_fail h1 h2]
  refine ⟨rfl, ?_, rfl, ?_⟩
  · simp [dictUpdate, Portfolio.init, stockBad, Stock.make]
  · simp [Portfolio.init]

/-- Claim C1, amended.  Whenever `addStock` fails, the asset mapping and the
metadata table have already been mutated: the mapping holds the new asset
(inserted or overwritten by name), and the metadata table carries the
appended row.  The add is partially applied, not rolled back. -/
theorem claim_C1_amended (pf : Portfolio) (s : Stock) (e : String)
    (_h : (pf.addStock s).2 = some e) :
    (pf.addStock s).1.stocks = dictUpdate pf.stocks s.name s ∧
    (pf.addStock s).1.portfolio = pf.portfolio ++ [s.investmentinfo] :=
  addStock_mutations pf s

/-- Witness for the amended claim C1 at a concrete failing input. -/
theorem claim_C1_witness :
    (Portfolio.init.addStock stockBad).2
        = some ("The money to be invested in the portfolio must be > 0.") ∧
    (Portfolio.init.addStock stockBad).1.stocks
        = dictUpdate Portfolio.init.stocks stockBad.name stockBad ∧
    (Portfolio.init.addStock stockBad).1.portfolio
        = Portfolio.init.portfolio ++ [stockBad.investmentinfo] := by
  have h1 : addStockData Portfolio.init.pf_stock_data stockBad.stock_data
      = ({ index := ["d1", "d2"], cols := [("A0", [100, 110])] }, none) := rfl
  have h2 : sumFMV (Portfolio.init.portfolio ++ [stockBad.investmentinfo]) ≤ 0 := by
    norm_num [sumFMV, listSum, Portfolio.init, stockBad, Stock.make]
  have h : (Portfolio.init.addStock stockBad).2
      = some ("The money to be invested in the portfolio must be > 0.") := by
    rw [addStock_setter_fail h1 h2]
  exact ⟨h, (claim_C1_amended Portfolio.init stockBad _ h).1,
    (claim_C1_amended Portfolio.init stockBad _ h).2⟩

/-- Claim C2, counterexample.  The claim states that adding an asset whose
non-empty date index is disjoint from the existing non-empty table index
raises a fatal error.  On the code it is false: `stockB` has three dates
entirely disjoint from the three dates already in `pfX`, yet the add
succeeds with no error, and the aggregated table's index is silently
overwritten with the new asset's dates. -/
theorem claim_C2_counterexample :
    pfX.pf_stock_data.index = ["d1", "d2", "d3"] ∧
    stockB.stock_data.index = ["e1", "e2", "e3"] ∧
    List.Disjoint stockB.stock_data.index pfX.pf_stock_data.index ∧
    (pfX.addStock stockB).2 = none ∧
    (pfX.addStock stockB).1.pf_stock_data.index = ["e1", "e2", "e3"] := by
  have h1 : addStockData pfX.pf_stock_data stockB.stock_data
      = ({ index := ["e1", "e2", "e3"],
           cols := [("A", [100, 110, 99]), ("B", [10, 12, 9])] }, none) := rfl
  have hs : (pfX.addStock stockB).2 = none := by
    refine addStock_ok_of h1 ?_ ?_ ?_
    · norm_num [sumFMV, listSum, pfX, stockB, Stock.make]
    · rfl
    · norm_num [quadForm, covMatrix, sampleCov, listMean, listSum, dotQ, dailyReturns,
        pctChanges, pfX, stockB, Stock.make, sumFMV]
  have hpair : pfX.addStock stockB
      = ((pfX.addStock stockB).1, (pfX.addStock stockB).2) := Prod.mk.eta.symm
  rw [hs] at hpair
  obtain ⟨d, hd, hdata, -, -, -, -, -⟩ := addStock_ok_inv hpair
  rw [h1] at hd
  injection hd with hd1 hd2
  refine ⟨rfl, rfl, by simp [stockB, Stock.make, pfX, List.disjoint_left], hs, ?_⟩
  rw [hdata, ← hd1]

/-- Claim C2, amended.  The merge step of `addStock` (`_addStockData`) never
compares date indices.  For a non-empty aggregated table and a single fresh
price column, it raises exactly when the new column's row count differs from
the table's row count; when the row counts agree it succeeds - whether the
date indices match, overlap or are disjoint - leaving the table's index
silently overwritten with the new asset's index.  An add with a matching
date index (same row count) is the special case of the latter. -/
theorem claim_C2_amended (pf df : DataFrame) (l : String) (vs : List ℚ)
    (hne : pf.cols ≠ []) (hdf : df.cols = [(l, vs)]) (hfresh : l ∉ pf.labels) :
    (vs.length ≠ pf.index.length →
      addStockData pf df
        = (pf, some ("Length of values does not match length of index"))) ∧
    (vs.length = pf.index.length → df.index.length = pf.index.length →
      addStockData pf df
        = ({ index := df.index, cols := pf.cols ++ [(l, vs)] }, none)) := by
  constructor
  · intro hlen
    have hins : pf.insertCol l vs
        = .error ("Length of values does not match length of index") := by
      unfold DataFrame.insertCol
      rw [if_neg hfresh, if_neg (fun hc => hne hc.1), if_neg hlen]
    simp only [addStockData, hdf, insertAll, hins]
  · intro hlen hidx
    have hins : pf.insertCol l vs = .ok { pf with cols := pf.cols ++ [(l, vs)] } := by
      unfold DataFrame.insertCol
      rw [if_neg hfresh, if_neg (fun hc => hne hc.1), if_pos hlen]
    have hset : DataFrame.setIndex { pf with cols := pf.cols ++ [(l, vs)] } df.index
        = .ok { index := df.index, cols := pf.cols ++ [(l, vs)] } := by
      unfold DataFrame.setIndex
      rw [if_pos (by simpa using hidx)]
    simp only [addStockData, hdf, insertAll, hins, hset]

/-- Witness for the amended claim C2: a concrete fresh column with two rows
merged into a two-row table with entirely different dates succeeds, and the
index is overwritten. -/
theorem claim_C2_witness :
    addStockData { index := ["d1", "d2"], cols := [("A", [1, 2])] }
        { index := ["e1", "e2"], cols := [("B", [3, 4])] }
      = ({ index := ["e1", "e2"], cols := [("A", [1, 2]), ("B", [3, 4])] }, none) := by
  exact (claim_C2_amended { index := ["d1", "d2"], cols := [("A", [1, 2])] }
    { index := ["e1", "e2"], cols := [("B", [3, 4])] } "B" [3, 4]
    (by simp) rfl (by simp [DataFrame.labels])).2 rfl rfl

/-- Claim C3, confirmed.  After any non-empty sequence of successful
`addStock` calls on a fresh portfolio, `totalinvestment` equals the sum of
all added assets' FMV, that sum is positive, `compPfWeights` returns one
component per added asset equal to its FMV divided by the total, and the
weights sum to exactly 1 (exact rational arithmetic, hence within any
floating tolerance). -/
theorem claim_C3 (ss : List Stock) (hne : ss ≠ [])
    (h : (Portfolio.init.addMany ss).2 = none) :
    (Portfolio.init.addMany ss).1.getTotalinvestment
        = .ok (sumFMV (ss.map (fun s => s.investmentinfo))) ∧
    0 < sumFMV (ss.map (fun s => s.investmentinfo)) ∧
    (Portfolio.init.addMany ss).1.compPfWeights
        = .ok (ss.map (fun s =>
            s.investmentinfo.FMV / sumFMV (ss.map (fun t => t.investmentinfo)))) ∧
    listSum (ss.map (fun s =>
        s.investmentinfo.FMV / sumFMV (ss.map (fun t => t.investmentinfo)))) = 1 := by
  obtain ⟨hport, hcond⟩ := addMany_ok_inv ss Portfolio.init h
  obtain ⟨htot, hpos⟩ := hcond hne
  have hinit : Portfolio.init.portfolio = [] := rfl
  rw [hinit, List.nil_append] at hport htot hpos
  have hT : (0:ℚ) < sumFMV (ss.map (fun s => s.investmentinfo)) := hpos
  refine ⟨?_, hT, ?_, ?_⟩
  · unfold Portfolio.getTotalinvestment
    rw [htot]
  · rw [compPfWeights_of_total htot, hport]
    rw [List.map_map]
    rfl
  · have := listSum_map_div (ss.map (fun s => s.investmentinfo))
      (sumFMV (ss.map (fun t => t.investmentinfo)))
    rw [List.map_map] at this
    have hfun : ((fun r : InvestmentInfo =>
        r.FMV / sumFMV (ss.map (fun t => t.investmentinfo))) ∘
        (fun s : Stock => s.investmentinfo))
        = fun s : Stock =>
            s.investmentinfo.FMV / sumFMV (ss.map (fun t => t.investmentinfo)) := rfl
    rw [hfun] at this
    rw [this, div_self (ne_of_gt hT)]

/-- Witness for claim C3: one successful add of `stockW`. -/
theorem claim_C3_witness :
    (Portfolio.init.addMany [stockW]).2 = none ∧
    (Portfolio.init.addMany [stockW]).1.getTotalinvestment
        = .ok (sumFMV ([stockW].map (fun s => s.investmentinfo))) ∧
    0 < sumFMV ([stockW].map (fun s => s.investmentinfo)) ∧
    listSum ([stockW].map (fun s =>
        s.investmentinfo.FMV / sumFMV ([stockW].map (fun t => t.investmentinfo)))) = 1 := by
  have h1 : addStockData Portfolio.init.pf_stock_data stockW.stock_data
      = ({ index := ["d1", "d2", "d3"], cols := [("W", [100, 110, 99])] }, none) := rfl
  have hadd : (Portfolio.init.addStock stockW).2 = none := by
    refine addStock_ok_of h1 ?_ ?_ ?_
    · norm_num [sumFMV, listSum, Portfolio.init, stockW, Stock.make]
    · rfl
    · norm_num [quadForm, covMatrix, sampleCov, listMean, listSum, dotQ, dailyReturns,
        pctChanges, Portfolio.init, stockW, Stock.make, sumFMV]
  have h : (Portfolio.init.addMany [stockW]).2 = none := by
    rw [addMany_cons_ok [] hadd]
    rfl
  have hc := claim_C3 [stockW] (by simp) h
  exact ⟨h, hc.1, hc.2.1, hc.2.2.2⟩

/-- Claim C4, counterexample.  The claim states that adding an asset whose
name already exists overwrites the prior entry and afterwards the metadata
table still has one row per asset and the aggregated table one column per
asset.  On the code it is false: adding `stockA2` (name "A", column label
"A") to `pfX` (which already holds "A") overwrites the mapping entry, but
the column insert raises a duplicate-column error and the metadata table is
left with two rows named "A" while the mapping holds one asset. -/
theorem claim_C4_counterexample :
    (pfX.addStock stockA2).1.stocks.map Prod.fst = ["A"] ∧
    (pfX.addStock stockA2).1.portfolio.map (fun r => r.Name) = ["A", "A"] ∧
    (pfX.addStock stockA2).2 = some ("cannot insert column, already exists") := by
  have hins : pfX.pf_stock_data.insertCol "A" [5, 6, 7]
      = .error ("cannot insert column, already exists") := by
    unfold DataFrame.insertCol
    rw [if_pos (by simp [pfX, DataFrame.labels])]
  have hasd : addStockData pfX.pf_stock_data stockA2.stock_data
      = (pfX.pf_stock_data, some ("cannot insert column, already exists")) := by
    have hcols : stockA2.stock_data.cols = [("A", [5, 6, 7])] := rfl
    simp only [addStockData, hcols, insertAll, hins]
  rw [addStock_merge_fail hasd]
  refine ⟨?_, ?_, rfl⟩
  · simp [dictUpdate, pfX, stockA2, Stock.make]
  · simp [pfX, stockA2, Stock.make]

/-- Claim C4, amended.  Adding an asset whose name already exists does
overwrite the mapping entry (last-write-wins, keys unchanged), but when the
asset's single data column carries a label already present in the
aggregated table, the merge raises a duplicate-column error; the metadata
table nevertheless receives the appended duplicate row and the aggregated
table keeps its old columns, so the one-row-per-asset invariant is broken
rather than preserved. -/
theorem claim_C4_amended (pf : Portfolio) (s : Stock) (l : String) (vs : List ℚ)
    (hname : s.name ∈ pf.stocks.map Prod.fst)
    (hcols : s.stock_data.cols = [(l, vs)])
    (hdup : l ∈ pf.pf_stock_data.labels) :
    (pf.addStock s).1.stocks = dictUpdate pf.stocks s.name s ∧
    (pf.addStock s).1.stocks.map Prod.fst = pf.stocks.map Prod.fst ∧
    (pf.addStock s).2 = some ("cannot insert column, already exists") ∧
    (pf.addStock s).1.portfolio = pf.portfolio ++ [s.investmentinfo] ∧
    (pf.addStock s).1.pf_stock_data = pf.pf_stock_data := by
  have hins : pf.pf_stock_data.insertCol l vs
      = .error ("cannot insert column, already exists") := by
    unfold DataFrame.insertCol
    rw [if_pos hdup]
  have hasd : addStockData pf.pf_stock_data s.stock_data
      = (pf.pf_stock_data, some ("cannot insert column, already exists")) := by
    simp only [addStockData, hcols, insertAll, hins]
  rw [addStock_merge_fail hasd]
  exact ⟨rfl, dictUpdate_keys_of_mem s hname, rfl, rfl, rfl⟩

/-- Witness for the amended claim C4 at the concrete duplicate add. -/
theorem claim_C4_witness :
    stockA2.name ∈ pfX.stocks.map Prod.fst ∧
    (pfX.addStock stockA2).1.stocks = dictUpdate pfX.stocks stockA2.name stockA2 ∧
    (pfX.addStock stockA2).1.stocks.map Prod.fst = pfX.stocks.map Prod.fst ∧
    (pfX.addStock stockA2).1.pf_stock_data = pfX.pf_stock_data := by
  have hname : stockA2.name ∈ pfX.stocks.map Prod.fst := by
    simp [pfX, stockA2, Stock.make]
  have h := claim_C4_amended pfX stockA2 "A" [5, 6, 7] hname rfl
    (by simp [pfX, DataFrame.labels])
  exact ⟨hname, h.1, h.2.1, h.2.2.2.2⟩

/-- Claim C5, confirmed against the spec-modelled `sharpeRatio` (its module
`qpy.pf_quants` is not among the sources).  Zero volatility yields the
explicit UndefinedSharpe error value - no unrelated arithmetic error, no
silent infinity - and any non-zero volatility yields
(expectedReturn - riskFreeRate) / volatility. -/
theorem claim_C5 (expectedReturn riskFreeRate volatility : ℝ) :
    (volatility = 0 →
      sharpeRatio expectedReturn volatility riskFreeRate
        = .error ("UndefinedSharpe")) ∧
    (volatility ≠ 0 →
      sharpeRatio expectedReturn volatility riskFreeRate
        = .ok ((expectedReturn - riskFreeRate) / volatility)) := by
  constructor
  · intro h
    unfold sharpeRatio
    rw [if_pos h]
  · intro h
    unfold sharpeRatio
    rw [if_neg h]

/-- Witness for claim C5 at concrete inputs. -/
theorem claim_C5_witness :
    sharpeRatio 3 0 1 = .error ("UndefinedSharpe") ∧ sharpeRatio 3 2 1 = .ok 1 := by
  constructor
  · exact (claim_C5 3 1 0).1 rfl
  · rw [(claim_C5 3 1 2).2 (by norm_num)]
    norm_num

/-- Claim C6, counterexample.  The claim states that the skew and kurtosis
cached by the `Stock` constructor are statistics of the distribution of the
asset's returns.  On the code it is false: `Stock.__init__` calls
`self.stock_data.skew()` and `self.stock_data.kurt()` on the raw price
frame, and for the concrete five-point price series of `dataC` the cached
kurtosis differs from the kurtosis of the daily returns of that series. -/
theorem claim_C6_counterexample :
    (Stock.make infoC dataC).kurtosis = pandasKurt [1, 2, 3, 5, 8] ∧
    pandasKurt [1, 2, 3, 5, 8] ≠ pandasKurt (pctChanges [1, 2, 3, 5, 8]) := by
  constructor
  · rfl
  · norm_num [pandasKurt, pctChanges, listMean, listSum]

/-- Claim C6, amended.  The skew and kurtosis cached at construction are the
pandas statistics of the RAW price series (first data column of
`stock_data`), not of the returns; they are fixed at construction - computed
by functions that take no annualization frequency, so no `freq` can
re-parameterize them. -/
theorem claim_C6_amended (investmentinfo : InvestmentInfo) (stock_data : DataFrame)
    (hcols : stock_data.cols ≠ []) :
    (Stock.make investmentinfo stock_data).skew = pandasSkew stock_data.cols.headI.2 ∧
    (Stock.make investmentinfo stock_data).kurtosis
      = pandasKurt stock_data.cols.headI.2 := by
  unfold Stock.make DataFrame.skewList DataFrame.kurtList
  rcases stock_data with ⟨idx, cols⟩
  cases cols with
  | nil => exact absurd rfl hcols
  | cons c rest => exact ⟨rfl, rfl⟩

/-- Witness for the amended claim C6 at the concrete series. -/
theorem claim_C6_witness :
    dataC.cols ≠ [] ∧
    (Stock.make infoC dataC).skew = pandasSkew dataC.cols.headI.2 ∧
    (Stock.make infoC dataC).kurtosis = pandasKurt dataC.cols.headI.2 := by
  have h := claim_C6_amended infoC dataC (by simp [dataC])
  exact ⟨by simp [dataC], h.1, h.2⟩

/-- Claim C7, confirmed against the spec-modelled `dailyReturns` (its module
`qpy.pf_returns` is not among the sources).  For every asset and every
positive `freq`, `compVolatility` returns, per price column, the sample
standard deviation (sqrt of the ddof-1 sample variance) of the daily
percentage changes of that column, multiplied by sqrt(freq). -/
theorem claim_C7 (s : Stock) (freq : ℕ)
    (_hne : s.stock_data.cols.headI.2 ≠ []) (_hf : 0 < freq) :
    s.compVolatility freq
      = s.stock_data.cols.map
          (fun c => Real.sqrt ((sampleVar (pctChanges c.2) : ℚ) : ℝ)
            * Real.sqrt (freq : ℝ)) := by
  unfold Stock.compVolatility volatilityOf dailyReturns sampleStd
  simp [List.map_map]

/-- Witness for claim C7 at `stockA` with freq = 252. -/
theorem claim_C7_witness :
    stockA.stock_data.cols.headI.2 ≠ [] ∧ 0 < 252 ∧
    stockA.compVolatility 252
      = stockA.stock_data.cols.map
          (fun c => Real.sqrt ((sampleVar (pctChanges c.2) : ℚ) : ℝ)
            * Real.sqrt ((252 : ℕ) : ℝ)) := by
  refine ⟨by simp [stockA, Stock.make], by norm_num, ?_⟩
  exact claim_C7 stockA 252 (by simp [stockA, Stock.make]) (by norm_num)

/-- Claim C8, confirmed.  If a single asset is added successfully to a fresh
portfolio, the weight vector is exactly [1] and, for every `freq`, the
portfolio expected return equals the asset's own
`compExpectedReturn(freq)` exactly (the single entry of its per-column
Series). -/
theorem claim_C8 (s : Stock) (pf1 : Portfolio)
    (h : Portfolio.init.addStock s = (pf1, none)) (freq : ℕ) :
    pf1.compPfWeights = .ok [1] ∧
    (pf1.compPfExpectedReturn freq).map Prod.fst
      = .ok ((s.compExpectedReturn freq).headI) := by
  obtain ⟨d, hd, hdata, hstocks, hport, htot, hpos, hlen⟩ := addStock_ok_inv h
  have hport1 : pf1.portfolio = [s.investmentinfo] := by
    simpa [Portfolio.init] using hport
  have hpos1 : (0 : ℚ) < s.investmentinfo.FMV := by
    simpa [Portfolio.init, sumFMV, listSum] using hpos
  have htot1 : pf1.totalinvestment = some s.investmentinfo.FMV := by
    simpa [Portfolio.init, sumFMV, listSum] using htot
  have hcols : d.cols = s.stock_data.cols := by
    have h2 := (addStockData_ok_inv hd).1
    simpa [Portfolio.init] using h2
  have hw : pf1.compPfWeights = .ok [1] := by
    rw [compPfWeights_of_total htot1, hport1]
    simp [div_self (ne_of_gt hpos1)]
  refine ⟨hw, ?_⟩
  have hlen1 : d.cols.length = 1 := by
    have h2 := hlen
    rw [historicalMeanReturn_length] at h2
    simpa [Portfolio.init] using h2
  rcases hdc : d.cols with _ | ⟨c, rest⟩
  · rw [hdc] at hlen1
    simp at hlen1
  · rcases rest with _ | ⟨c2, r2⟩
    · have hmeans : historicalMeanReturn pf1.pf_stock_data freq
          = [listMean (pctChanges c.2) * (freq : ℚ)] := by
        rw [hdata]
        simp [historicalMeanReturn, dailyReturns, hdc]
      have hsER : s.compExpectedReturn freq
          = [listMean (pctChanges c.2) * (freq : ℚ)] := by
        unfold Stock.compExpectedReturn
        rw [← historicalMeanReturn_congr freq hcols]
        simp [historicalMeanReturn, dailyReturns, hdc]
      have hwm : weightedMean [listMean (pctChanges c.2) * (freq : ℚ)] [1]
          = .ok (dotQ [listMean (pctChanges c.2) * (freq : ℚ)] [1]) :=
        weightedMean_ok_of (by simp)
      simp only [Portfolio.compPfExpectedReturn, hw, hmeans, hwm]
      rw [hsER]
      simp [Except.map, dotQ, listSum]
    · rw [hdc] at hlen1
      simp at hlen1

/-- Witness for claim C8: the concrete single-asset add of `stockW`. -/
theorem claim_C8_witness :
    Portfolio.init.addStock stockW = ((Portfolio.init.addStock stockW).1, none) ∧
    (Portfolio.init.addStock stockW).1.compPfWeights = .ok [1] ∧
    ((Portfolio.init.addStock stockW).1.compPfExpectedReturn 252).map Prod.fst
      = .ok ((stockW.compExpectedReturn 252).headI) := by
  have h1 : addStockData Portfolio.init.pf_stock_data stockW.stock_data
      = ({ index := ["d1", "d2", "d3"], cols := [("W", [100, 110, 99])] }, none) := rfl
  have hs : (Portfolio.init.addStock stockW).2 = none := by
    refine addStock_ok_of h1 ?_ ?_ ?_
    · norm_num [sumFMV, listSum, Portfolio.init, stockW, Stock.make]
    · rfl
    · norm_num [quadForm, covMatrix, sampleCov, listMean, listSum, dotQ, dailyReturns,
        pctChanges, Portfolio.init, stockW, Stock.make, sumFMV]
  have hpair : Portfolio.init.addStock stockW
      = ((Portfolio.init.addStock stockW).1, (Portfolio.init.addStock stockW).2) :=
    Prod.mk.eta.symm
  rw [hs] at hpair
  have hc := claim_C8 stockW (Portfolio.init.addStock stockW).1 hpair 252
  exact ⟨hpair, hc.1, hc.2⟩

/-- Claim C9, confirmed.  A freshly constructed portfolio never sets the
backing attribute of `totalinvestment` (the constructor passes `None`,
which the setter treats as initialisation and skips), so reading the
property raises; consequently `compPfWeights`, and with it
`compPfExpectedReturn` for every `freq`, fault on an empty portfolio. -/
theorem claim_C9 :
    Portfolio.init.totalinvestment = none ∧
    Portfolio.init.getTotalinvestment
      = .error ("AttributeError: no attribute _Portfolio__totalinvestment") ∧
    Portfolio.init.compPfWeights
      = .error ("AttributeError: no attribute _Portfolio__totalinvestment") ∧
    (∀ freq : ℕ, Portfolio.init.compPfExpectedReturn freq
      = .error ("AttributeError: no attribute _Portfolio__totalinvestment")) :=
  ⟨rfl, rfl, rfl, fun _ => rfl⟩

/-- Claim C10, confirmed.  `compPfExpectedReturn` and `compPfVolatility`
leave every component of the state unchanged except that they overwrite the
cached `expectedReturn` respectively `volatility` field with the value they
return; `compPfSharpe` is a function of the two cached fields alone (plus
the rate), touching only the `sharpe` field - so its result reflects
whatever `freq` values were last used to fill those caches. -/
theorem claim_C10 :
    (∀ (pf : Portfolio) (freq : ℕ) (er : ℚ) (pf2 : Portfolio),
        pf.compPfExpectedReturn freq = .ok (er, pf2) →
          pf2 = { pf with expectedReturn := some er }) ∧
    (∀ (pf : Portfolio) (freq : ℕ) (vol : ℝ) (pf2 : Portfolio),
        pf.compPfVolatility freq = .ok (vol, pf2) →
          pf2 = { pf with volatility := some vol }) ∧
    (∀ (pf : Portfolio) (riskFreeRate : ℝ) (er : ℚ) (vol : ℝ),
        pf.expectedReturn = some er → pf.volatility = some vol →
          pf.compPfSharpe riskFreeRate
            = (sharpeRatio (er : ℝ) vol riskFreeRate).map
                (fun sh => (sh, { pf with sharpe := some sh }))) := by
  refine ⟨fun pf freq er pf2 h => (compPfExpectedReturn_ok_inv h).1,
          fun pf freq vol pf2 h => (compPfVolatility_ok_inv h).1,
          fun pf rf er vol he hv => ?_⟩
  simp only [Portfolio.compPfSharpe, he, hv]
  rcases hsr : sharpeRatio (er : ℝ) vol rf with e | sh
  · simp [Except.map]
  · simp [Except.map]

/-- Witness for claim C10: a concrete state with cached expected return 3
and cached volatility 2. -/
theorem claim_C10_witness :
    pfC10.expectedReturn = some 3 ∧ pfC10.volatility = some 2 ∧
    pfC10.compPfSharpe 1
      = (sharpeRatio ((3 : ℚ) : ℝ) 2 1).map
          (fun sh => (sh, { pfC10 with sharpe := some sh })) :=
  ⟨rfl, rfl, claim_C10.2.2 pfC10 1 3 2 rfl rfl⟩
